import Mathlib

/-!
# Verification of the Stedin eKlok forecast core (`custom_components/stedin_eklok/api.py`)

Shallow embedding of the analysis pipeline of `StedinEklokAPI`:

* timestamps are modelled as UTC instants in whole seconds (`Int`); a raw record's
  `date` field is `Option Int`, where `none` stands for a missing or unparseable
  ISO-8601 string (Python's `datetime.fromisoformat` on it raises and the item is
  skipped), and `some t` for a string that parses to the instant `t`;
* JSON numbers are modelled as exact rationals `Q` (an integer numerator over a
  positive natural denominator, kept kernel-computable; representations are not
  normalised, and every comparison is by cross-multiplication, i.e. by value);
  Python's `round(x, 1)` (round half to even) is `pyRound1`;
* a raw record's `range` field is `Option Q` (`none` = key absent, read back with
  the Python default `item.get("range", 100)`), and `color` is `Option String`;
* Python dictionaries returned by `_analyze_day` / `_get_current_status` become
  structures; the empty dictionary `{}` returned for an empty day is `none`;
* a Python `TypeError` escaping a function is modelled by `Except String`:
  `_analyze_day` evaluates `h.get("range", 100) <= -30` on hourly buckets whose
  `"range"` key is present but `None`, which raises `TypeError` in Python 3 —
  `bucketLeOrErr` and friends reproduce this;
* the network layer is abstracted by `FetchOutcome`: a transport/protocol failure
  (timeout, non-2xx, malformed body — all `requests.RequestException`s caught by
  `_fetch_day`) or a successful JSON body (`ApiBody`).
-/

/-- An exact rational number: `num / den` with `den` a positive natural.
Models the JSON numbers the Python code manipulates.  Representations are not
reduced to lowest terms; all operations below are the textbook formulas. -/
structure Q where
  num : Int
  den : PNat
deriving DecidableEq

/-- The rational `n / 1`. -/
def Q.ofInt (n : Int) : Q := ⟨n, 1⟩

/-- Value order: `a ≤ b` iff `a.num * b.den ≤ b.num * a.den`. -/
def Q.le (a b : Q) : Prop := a.num * (b.den : Nat) ≤ b.num * (a.den : Nat)

/-- Strict value order. -/
def Q.lt (a b : Q) : Prop := a.num * (b.den : Nat) < b.num * (a.den : Nat)

instance : DecidableRel Q.le := fun a b => by unfold Q.le; infer_instance

instance : DecidableRel Q.lt := fun a b => by unfold Q.lt; infer_instance

/-- Addition. -/
def Q.add (a b : Q) : Q := ⟨a.num * (b.den : Nat) + b.num * (a.den : Nat), a.den * b.den⟩

/-- Subtraction. -/
def Q.sub (a b : Q) : Q := ⟨a.num * (b.den : Nat) - b.num * (a.den : Nat), a.den * b.den⟩

/-- Multiplication. -/
def Q.mul (a b : Q) : Q := ⟨a.num * b.num, a.den * b.den⟩

/-- Division by a natural number; division by zero never occurs on reachable
paths (Python would raise `ZeroDivisionError`), so it is mapped to a junk
value. -/
def Q.divNat (a : Q) (n : Nat) : Q :=
  if h : 0 < n then ⟨a.num, a.den * ⟨n, h⟩⟩ else a

/-- Floor of a rational. -/
def Q.floor (a : Q) : Int := a.num.fdiv (a.den : Nat)

/-- Python's binary `min` (returns the first argument on value ties). -/
def Q.min2 (a b : Q) : Q := if Q.lt b a then b else a

/-- Python's binary `max` (returns the first argument on value ties). -/
def Q.max2 (a b : Q) : Q := if Q.lt a b then b else a

/-- `sum(rs)` (Python starts from the integer `0`). -/
def listSum (rs : List Q) : Q := rs.foldl Q.add (Q.ofInt 0)

/-- `sum(rs) / len(rs)`. -/
def listAvg (rs : List Q) : Q := (listSum rs).divNat rs.length

/-- `min(rs)` for a nonempty Python list, with the fallback 100 the code uses
for the empty case. -/
def listMin : List Q → Q
  | [] => Q.ofInt 100
  | r :: rs => rs.foldl Q.min2 r

/-- `max(rs)` for a nonempty Python list, with the fallback 100 the code uses
for the empty case. -/
def listMax : List Q → Q
  | [] => Q.ofInt 100
  | r :: rs => rs.foldl Q.max2 r

/-- Python's `round` to an integer: round half to even. -/
def pyRoundInt (q : Q) : Int :=
  let f := q.floor
  if Q.lt (q.sub (Q.ofInt f)) ⟨1, 2⟩ then f
  else if Q.lt ⟨1, 2⟩ (q.sub (Q.ofInt f)) then f + 1
  else if f % 2 = 0 then f else f + 1

/-- Python's `round(q, 1)`. -/
def pyRound1 (q : Q) : Q := (Q.ofInt (pyRoundInt (Q.mul (Q.ofInt 10) q))).divNat 10

/-- One raw record as delivered by the provider: an optional parsed `date`
timestamp (in seconds, UTC; `none` = missing or unparseable string), an optional
`range` number and an optional precomputed `color` string. -/
structure RawItem where
  date : Option Int
  range : Option Q
  color : Option String
deriving DecidableEq

/-- A `{"date": ..., "range": ...}` projection used for `best_moments`. -/
structure Moment where
  date : Option Int
  range : Q
deriving DecidableEq

/-- A `{"date": ..., "range": ..., "color": ...}` record used for the
green/orange/red moment lists. -/
structure MomentInfo where
  date : Option Int
  range : Q
  color : String
deriving DecidableEq

/-- One hourly bucket as produced by `_aggregate_hourly`: the Python dict
`{"hour": h, "range": r_or_None, "color": c}`. -/
structure Bucket where
  hour : Nat
  range : Option Q
  color : String
deriving DecidableEq

/-- The dict produced by `_get_current_status`.  The sentinel branch has no
`"time"` key, modelled by `time = none`. -/
structure CurrentStatus where
  status : String
  range : Q
  color : String
  is_good_moment : Bool
  time : Option Int
deriving DecidableEq

/-- The dict produced by `_analyze_day` for a non-empty day. -/
structure DayAnalysis where
  average_range : Q
  min_range : Q
  max_range : Q
  green_count : Nat
  orange_count : Nat
  red_count : Nat
  best_moments : List Moment
  green_moments : List MomentInfo
  hourly_data : List Bucket
  raw_data_count : Nat
deriving DecidableEq

/-- The dict returned by `get_data`.  `today_analysis`/`tomorrow_analysis` are
`none` when the corresponding day produced the empty dict `{}`. -/
structure ForecastResult where
  today : Option (List RawItem)
  tomorrow : Option (List RawItem)
  today_analysis : Option DayAnalysis
  tomorrow_analysis : Option DayAnalysis
  current_status : CurrentStatus
  last_update : Int
deriving DecidableEq

/-- `_get_color`: green for `range_val <= -30`, orange for `-30 < range_val <= 30`,
red otherwise. -/
def get_color (range_val : Q) : String :=
  if Q.le range_val (Q.ofInt (-30)) then "green"
  else if Q.le range_val (Q.ofInt 30) then "orange"
  else "red"

/-- The `hour` component (UTC) of an instant given in seconds. -/
def hourOf (t : Int) : Nat := (t % 86400).toNat / 3600

/-- The ranges contributing to hour `h`: in iteration order, the `range` values
(default 100) of the items whose `date` parses and falls in hour `h`.  This is
the `hourly[h]["ranges"]` list accumulated by `_aggregate_hourly`; items whose
timestamp fails to parse are skipped by its `except (ValueError, TypeError)`. -/
def contrib (data : List RawItem) (h : Nat) : List Q :=
  data.filterMap fun item =>
    match item.date with
    | some t => if hourOf t = h then some (item.range.getD (Q.ofInt 100)) else none
    | none => none

/-- The bucket `_aggregate_hourly` emits for hour `h`: average (rounded to one
decimal) and `_get_color` of the unrounded average when the hour has data,
`None`/`"gray"` otherwise. -/
def mkBucket (data : List RawItem) (h : Nat) : Bucket :=
  let rs := contrib data h
  if rs.isEmpty then { hour := h, range := none, color := "gray" }
  else { hour := h, range := some (pyRound1 (listAvg rs)), color := get_color (listAvg rs) }

/-- `_aggregate_hourly`: one bucket per hour `0..23`, in order. -/
def aggregate_hourly (data : List RawItem) : List Bucket :=
  (List.range 24).map (mkBucket data)

/-- The bucket at position `h` of `_aggregate_hourly`'s output. -/
def bucketAt (data : List RawItem) (h : Nat) : Bucket :=
  (aggregate_hourly data).getD h { hour := 0, range := none, color := "" }

/-- The `{"date": d.get("date"), "range": d.get("range", 100)}` projection. -/
def projMoment (item : RawItem) : Moment :=
  { date := item.date, range := item.range.getD (Q.ofInt 100) }

/-- The `moment_info` dict built in `_analyze_day`'s loop. -/
def mkMomentInfo (item : RawItem) : MomentInfo :=
  let rv := item.range.getD (Q.ofInt 100)
  { date := item.date, range := rv, color := item.color.getD (get_color rv) }

/-- The sort key order of `sorted(..., key=lambda x: x["range"])`. -/
def momentLe (a b : Moment) : Prop := Q.le a.range b.range

instance : DecidableRel momentLe := fun a b => by unfold momentLe; infer_instance

/-- Python's `h.get("range", 100) <= c` on a bucket dict: the `"range"` key is
always present, so the default is dead; when its value is `None` the comparison
raises `TypeError`. -/
def bucketLeOrErr (b : Bucket) (c : Q) : Except String Bool :=
  match b.range with
  | some v => .ok (decide (Q.le v c))
  | none => .error "TypeError"

/-- Python's `-30 < h.get("range", 100) <= 30` (chained comparison; the first
comparison against `None` already raises). -/
def bucketOrangeOrErr (b : Bucket) : Except String Bool :=
  match b.range with
  | some v => .ok (decide (Q.lt (Q.ofInt (-30)) v ∧ Q.le v (Q.ofInt 30)))
  | none => .error "TypeError"

/-- Python's `h.get("range", 100) > 30`. -/
def bucketGtOrErr (b : Bucket) (c : Q) : Except String Bool :=
  match b.range with
  | some v => .ok (decide (Q.lt c v))
  | none => .error "TypeError"

/-- `sum(1 for h in hourly_data if p h)` where `p` may raise. -/
def countTrueOrErr (p : Bucket → Except String Bool) : List Bucket → Except String Nat
  | [] => .ok 0
  | b :: bs => do
    let x ← p b
    let n ← countTrueOrErr p bs
    pure (if x then n + 1 else n)

/-- `_analyze_day`.  Returns `.ok none` for the empty dict `{}` on empty input,
`.error "TypeError"` when the hourly band counting compares `None` with a
number, and `.ok (some _)` otherwise. -/
def analyze_day (data : List RawItem) : Except String (Option DayAnalysis) :=
  if data.isEmpty then .ok none
  else
    let ranges := data.map fun item => item.range.getD (Q.ofInt 100)
    let green_moments := data.filterMap fun item =>
      if Q.le (item.range.getD (Q.ofInt 100)) (Q.ofInt (-30)) then some (mkMomentInfo item)
      else none
    let all_moments := List.insertionSort momentLe (data.map projMoment)
    let hourly_data := aggregate_hourly data
    do
      let g ← countTrueOrErr (fun b => bucketLeOrErr b (Q.ofInt (-30))) hourly_data
      let o ← countTrueOrErr bucketOrangeOrErr hourly_data
      let r ← countTrueOrErr (fun b => bucketGtOrErr b (Q.ofInt 30)) hourly_data
      .ok (some
        { average_range := pyRound1 (listAvg ranges)
          min_range := listMin ranges
          max_range := listMax ranges
          green_count := g
          orange_count := o
          red_count := r
          best_moments := all_moments.take 5
          green_moments := green_moments.take 10
          hourly_data := hourly_data
          raw_data_count := data.length })

/-- The sentinel status returned when there is no data or no sample within a
day of `now`: `{"status": "unknown", "range": 100, "color": "gray",
"is_good_moment": False}` (no `"time"` key). -/
def unknownStatus : CurrentStatus :=
  { status := "unknown", range := Q.ofInt 100, color := "gray"
    is_good_moment := false, time := none }

/-- The status dict built from the selected closest item. -/
def statusOf (item : RawItem) : CurrentStatus :=
  let rv := item.range.getD (Q.ofInt 100)
  { status :=
      if Q.le rv (Q.ofInt (-30)) then "good"
      else if Q.le rv (Q.ofInt 30) then "moderate"
      else "bad"
    range := rv
    color := item.color.getD (get_color rv)
    is_good_moment := decide (Q.le rv (Q.ofInt (-30)))
    time := item.date }

/-- The scan loop of `_get_current_status`: running minimum distance `minDiff`
(initially one day) and current best item; items with unparseable timestamps
are skipped; only a strictly smaller distance replaces the best. -/
def scanClosest (now : Int) : List RawItem → Int → Option RawItem → Option RawItem
  | [], _, best => best
  | item :: rest, minDiff, best =>
    match item.date with
    | none => scanClosest now rest minDiff best
    | some t =>
      if |now - t| < minDiff then scanClosest now rest |now - t| (some item)
      else scanClosest now rest minDiff best

/-- `_get_current_status`. -/
def get_current_status (now : Int) (todayData : Option (List RawItem)) : CurrentStatus :=
  match todayData with
  | none => unknownStatus
  | some data =>
    if data.isEmpty then unknownStatus
    else
      match scanClosest now data 86400 none with
      | some item => statusOf item
      | none => unknownStatus

/-- A provider response body that passed the HTTP layer: either the
`{"data": [...]}` envelope, a bare JSON array, or any other JSON value. -/
inductive ApiBody where
  | envelope (records : List RawItem)
  | bare (records : List RawItem)
  | other
deriving DecidableEq

/-- Outcome of one `requests.get` call: a `RequestException` (timeout, non-2xx
via `raise_for_status`, malformed JSON body) or a decoded body. -/
inductive FetchOutcome where
  | failure
  | success (body : ApiBody)
deriving DecidableEq

/-- `_fetch_day`: `None` on any transport/protocol failure or unrecognised
body shape, otherwise the normalized record list. -/
def fetch_day (outcome : FetchOutcome) : Option (List RawItem) :=
  match outcome with
  | .failure => none
  | .success (.envelope rs) => some rs
  | .success (.bare rs) => some rs
  | .success .other => none

/-- Python truthiness of `today_data` (a `list | None`). -/
def listTruthy : Option (List RawItem) → Bool
  | none => false
  | some [] => false
  | some (_ :: _) => true

/-- `get_data`, parameterised by the two fetch outcomes and `now`.  A
`TypeError` escaping `_analyze_day` propagates to the caller. -/
def get_data (now : Int) (todayFetch tomorrowFetch : FetchOutcome) :
    Except String ForecastResult := do
  let today_data := fetch_day todayFetch
  let tomorrow_data := fetch_day tomorrowFetch
  let today_analysis ←
    if listTruthy today_data then analyze_day (today_data.getD []) else .ok none
  let tomorrow_analysis ←
    if listTruthy tomorrow_data then analyze_day (tomorrow_data.getD []) else .ok none
  .ok
    { today := today_data
      tomorrow := tomorrow_data
      today_analysis := today_analysis
      tomorrow_analysis := tomorrow_analysis
      current_status := get_current_status now today_data
      last_update := now }

instance {ε α : Type} [DecidableEq ε] [DecidableEq α] : DecidableEq (Except ε α) := fun x y =>
  match x, y with
  | .ok a, .ok b =>
    if h : a = b then .isTrue (by rw [h]) else .isFalse (fun he => by cases he; exact h rfl)
  | .error a, .error b =>
    if h : a = b then .isTrue (by rw [h]) else .isFalse (fun he => by cases he; exact h rfl)
  | .ok a, .error b => .isFalse (fun he => by cases he)
  | .error a, .ok b => .isFalse (fun he => by cases he)

/-! ## Order facts about `Q` -/

theorem Q.not_le_iff {a b : Q} : ¬ Q.le a b ↔ Q.lt b a := Int.not_le

theorem Q.le_total (a b : Q) : Q.le a b ∨ Q.le b a := Int.le_total _ _

theorem Q.le_trans {a b c : Q} (h1 : Q.le a b) (h2 : Q.le b c) : Q.le a c := by
  unfold Q.le at h1 h2 ⊢
  have ha : (0 : Int) < ((a.den : Nat) : Int) := by exact_mod_cast a.den.pos
  have hb : (0 : Int) < ((b.den : Nat) : Int) := by exact_mod_cast b.den.pos
  have hc : (0 : Int) < ((c.den : Nat) : Int) := by exact_mod_cast c.den.pos
  nlinarith [mul_le_mul_of_nonneg_right h1 hc.le, mul_le_mul_of_nonneg_right h2 ha.le]

instance : IsTotal Moment momentLe := ⟨fun a b => Q.le_total a.range b.range⟩

instance : IsTrans Moment momentLe := ⟨fun _ _ _ => Q.le_trans⟩

/-! ## Claim theorems -/

/-- Claim C2: `_get_color` maps a pressure to green exactly when it is at most
-30, to red exactly when it exceeds 30, and to orange exactly on the half-open
band (-30, 30]; at the boundaries, -30 is green, 30 is orange, 30.0001 is red. -/
theorem get_color_bands :
    (∀ p : Q,
      (get_color p = "green" ↔ Q.le p (Q.ofInt (-30))) ∧
      (get_color p = "red" ↔ Q.lt (Q.ofInt 30) p) ∧
      (get_color p = "orange" ↔ Q.lt (Q.ofInt (-30)) p ∧ Q.le p (Q.ofInt 30))) ∧
    get_color (Q.ofInt (-30)) = "green" ∧
    get_color (Q.ofInt 30) = "orange" ∧
    get_color ⟨300001, 10000⟩ = "red" := by
  refine ⟨fun p => ?_, by decide, by decide, by decide⟩
  have h3030 : Q.le (Q.ofInt (-30)) (Q.ofInt 30) := by decide
  by_cases hG : Q.le p (Q.ofInt (-30))
  · rw [get_color, if_pos hG]
    refine ⟨⟨fun _ => hG, fun _ => rfl⟩, ⟨fun h => absurd h (by decide), fun h => ?_⟩,
      ⟨fun h => absurd h (by decide), fun h => ?_⟩⟩
    · exact absurd (Q.le_trans hG h3030) (Q.not_le_iff.mpr h)
    · exact absurd hG (Q.not_le_iff.mpr h.1)
  · by_cases hO : Q.le p (Q.ofInt 30)
    · rw [get_color, if_neg hG, if_pos hO]
      exact ⟨⟨fun h => absurd h (by decide), fun h => absurd h hG⟩,
        ⟨fun h => absurd h (by decide), fun h => absurd hO (Q.not_le_iff.mpr h)⟩,
        ⟨fun _ => ⟨Q.not_le_iff.mp hG, hO⟩, fun _ => rfl⟩⟩
    · rw [get_color, if_neg hG, if_neg hO]
      exact ⟨⟨fun h => absurd h (by decide), fun h => absurd h hG⟩,
        ⟨fun _ => Q.not_le_iff.mp hO, fun _ => rfl⟩,
        ⟨fun h => absurd h (by decide), fun h => absurd h.2 hO⟩⟩

/-- Claim C5: `_aggregate_hourly` always returns exactly 24 buckets whose
`hour` fields are `0, 1, ..., 23` in ascending order, for any input. -/
theorem aggregate_hourly_always_24 (data : List RawItem) :
    (aggregate_hourly data).length = 24 ∧
    (aggregate_hourly data).map Bucket.hour = List.range 24 := by
  constructor
  · simp [aggregate_hourly]
  · unfold aggregate_hourly
    rw [List.map_map]
    have hcomp : Bucket.hour ∘ mkBucket data = id := by
      funext h
      show (mkBucket data h).hour = h
      unfold mkBucket
      dsimp only
      split <;> rfl
    rw [hcomp, List.map_id]

theorem bucketAt_eq (data : List RawItem) {h : Nat} (hh : h < 24) :
    bucketAt data h = mkBucket data h := by
  unfold bucketAt aggregate_hourly
  rw [List.getD_eq_getElem?_getD, List.getElem?_map, List.getElem?_range hh]
  rfl

/-- Claim C6 (corrected): a bucket for an hour with no contributing samples has
an absent average and the color string `"gray"` (the code's unknown marker),
not `"unknown"`. -/
theorem empty_hour_bucket_gray (data : List RawItem) {h : Nat} (hh : h < 24)
    (he : contrib data h = []) :
    bucketAt data h = { hour := h, range := none, color := "gray" } := by
  rw [bucketAt_eq data hh]
  unfold mkBucket
  simp [he]

/-- Witness for `empty_hour_bucket_gray` at the empty input and hour 0. -/
theorem empty_hour_bucket_gray_witness :
    (0 < 24 ∧ contrib [] 0 = []) ∧
    bucketAt [] 0 = { hour := 0, range := none, color := "gray" } :=
  ⟨⟨by decide, rfl⟩, empty_hour_bucket_gray [] (by decide) rfl⟩

/-- Counterexample to claim C6 as stated: the no-data bucket's color is the
string `"gray"`, not `"unknown"`. -/
theorem empty_hour_bucket_color_cex :
    (bucketAt [] 0).range = none ∧ (bucketAt [] 0).color = "gray" ∧
    (bucketAt [] 0).color ≠ "unknown" := by decide

/-- Claim C7 (corrected): a bucket for an hour with at least one contributing
sample has `range` equal to the hourly mean rounded to one decimal place, and
`color` equal to `_get_color` applied to the *unrounded* mean (which can differ
from the classification of the stored rounded average). -/
theorem nonempty_hour_bucket_avg_color (data : List RawItem) {h : Nat} (hh : h < 24)
    (hne : contrib data h ≠ []) :
    bucketAt data h =
      { hour := h, range := some (pyRound1 (listAvg (contrib data h)))
        color := get_color (listAvg (contrib data h)) } := by
  rw [bucketAt_eq data hh]
  unfold mkBucket
  simp [hne]

/-- Witness for `nonempty_hour_bucket_avg_color` at a one-sample input. -/
theorem nonempty_hour_bucket_avg_color_witness :
    (0 < 24 ∧ contrib [⟨some 0, some (Q.ofInt (-40)), none⟩] 0 ≠ []) ∧
    bucketAt [⟨some 0, some (Q.ofInt (-40)), none⟩] 0 =
      { hour := 0
        range := some (pyRound1 (listAvg (contrib [⟨some 0, some (Q.ofInt (-40)), none⟩] 0)))
        color := get_color (listAvg (contrib [⟨some 0, some (Q.ofInt (-40)), none⟩] 0)) } :=
  ⟨⟨by decide, by decide⟩,
    nonempty_hour_bucket_avg_color [⟨some 0, some (Q.ofInt (-40)), none⟩] (by decide) (by decide)⟩

/-- Counterexample to claim C7 as stated: for a single sample with pressure
30.04, the stored average is 30.0 whose classification is orange, but the
bucket's color is red (classified from the unrounded mean 30.04). -/
theorem nonempty_hour_bucket_color_cex :
    (bucketAt [⟨some 0, some ⟨751, 25⟩, none⟩] 0).range = some ⟨300, 10⟩ ∧
    (bucketAt [⟨some 0, some ⟨751, 25⟩, none⟩] 0).color = "red" ∧
    get_color ⟨300, 10⟩ = "orange" ∧
    (bucketAt [⟨some 0, some ⟨751, 25⟩, none⟩] 0).color ≠ get_color ⟨300, 10⟩ := by decide

/-- Claim C9: a provider response with the `{"data": [...]}` envelope and one
with the bare array of the same records normalize to the same sample sequence,
so `_analyze_day` produces identical results on the two fetch results. -/
theorem fetch_shape_roundtrip (rs : List RawItem) :
    fetch_day (.success (.envelope rs)) = fetch_day (.success (.bare rs)) ∧
    analyze_day ((fetch_day (.success (.envelope rs))).getD []) =
      analyze_day ((fetch_day (.success (.bare rs))).getD []) :=
  ⟨rfl, rfl⟩

/-- Claim C1 (code bug): with a successful today fetch whose samples do not
cover all 24 hours (here a single sample at 10:00 UTC), `get_data` raises a
`TypeError` out of `_analyze_day` instead of returning a result. -/
theorem get_data_typeerror_on_partial_day :
    get_data 0 (.success (.bare [⟨some 36000, some (Q.ofInt (-40)), none⟩])) .failure =
      .error "TypeError" := by decide

/-- Claim C3 (code bug): on a non-empty day whose samples leave some hourly
bucket empty, `_analyze_day` raises a `TypeError` (comparing `None` with -30
while counting green hours) instead of computing the band counts. -/
theorem analyze_day_typeerror_on_partial_day :
    analyze_day [⟨some 36000, some (Q.ofInt (-40)), none⟩] = .error "TypeError" := by decide

/-! ## The nearest-sample scan -/

theorem scanClosest_cons_none (now : Int) (item : RawItem) (rest : List RawItem)
    (md : Int) (best : Option RawItem) (hd : item.date = none) :
    scanClosest now (item :: rest) md best = scanClosest now rest md best := by
  obtain ⟨d, r, c⟩ := item
  cases hd
  rfl

theorem scanClosest_cons_some (now t : Int) (item : RawItem) (rest : List RawItem)
    (md : Int) (best : Option RawItem) (hd : item.date = some t) :
    scanClosest now (item :: rest) md best =
      if |now - t| < md then scanClosest now rest |now - t| (some item)
      else scanClosest now rest md best := by
  obtain ⟨d, r, c⟩ := item
  cases hd
  rfl

theorem scanClosest_spec (now : Int) :
    ∀ (l : List RawItem) (md : Int) (best : Option RawItem),
      (scanClosest now l md best = best ∧
        ∀ (k : Nat) (it : RawItem) (t : Int),
          l[k]? = some it → it.date = some t → md ≤ |now - t|) ∨
      (∃ (i : Nat) (it : RawItem) (t : Int), l[i]? = some it ∧ it.date = some t ∧
        scanClosest now l md best = some it ∧ |now - t| < md ∧
        (∀ (k : Nat) (ku : RawItem) (u : Int),
          l[k]? = some ku → ku.date = some u → |now - t| ≤ |now - u|) ∧
        (∀ (k : Nat) (ku : RawItem) (u : Int),
          k < i → l[k]? = some ku → ku.date = some u → |now - t| < |now - u|)) := by
  intro l
  induction l with
  | nil =>
    intro md best
    left
    refine ⟨rfl, ?_⟩
    intro k it t hk _
    simp at hk
  | cons item rest ih =>
    intro md best
    cases hd : item.date with
    | none =>
      have hstep : scanClosest now (item :: rest) md best = scanClosest now rest md best :=
        scanClosest_cons_none now item rest md best hd
      rcases ih md best with ⟨heq, hall⟩ | ⟨i, it, t, hi, hit, heq, hlt, hmin, hstrict⟩
      · left
        refine ⟨hstep.trans heq, ?_⟩
        intro k ku u hk hdate
        cases k with
        | zero =>
          rw [List.getElem?_cons_zero] at hk
          injection hk with hk
          subst hk
          rw [hd] at hdate
          exact Option.noConfusion hdate
        | succ k =>
          rw [List.getElem?_cons_succ] at hk
          exact hall k ku u hk hdate
      · right
        refine ⟨i + 1, it, t, ?_, hit, hstep.trans heq, hlt, ?_, ?_⟩
        · rw [List.getElem?_cons_succ]
          exact hi
        · intro k ku u hk hdate
          cases k with
          | zero =>
            rw [List.getElem?_cons_zero] at hk
            injection hk with hk
            subst hk
            rw [hd] at hdate
            exact Option.noConfusion hdate
          | succ k =>
            rw [List.getElem?_cons_succ] at hk
            exact hmin k ku u hk hdate
        · intro k ku u hki hk hdate
          cases k with
          | zero =>
            rw [List.getElem?_cons_zero] at hk
            injection hk with hk
            subst hk
            rw [hd] at hdate
            exact Option.noConfusion hdate
          | succ k =>
            rw [List.getElem?_cons_succ] at hk
            exact hstrict k ku u (by omega) hk hdate
    | some t0 =>
      by_cases hcmp : |now - t0| < md
      · have hstep : scanClosest now (item :: rest) md best =
            scanClosest now rest |now - t0| (some item) :=
          (scanClosest_cons_some now t0 item rest md best hd).trans (if_pos hcmp)
        rcases ih |now - t0| (some item) with ⟨heq, hall⟩ |
          ⟨i, it, t, hi, hit, heq, hlt, hmin, hstrict⟩
        · right
          refine ⟨0, item, t0, List.getElem?_cons_zero, hd, hstep.trans heq, hcmp, ?_, ?_⟩
          · intro k ku u hk hdate
            cases k with
            | zero =>
              rw [List.getElem?_cons_zero] at hk
              injection hk with hk
              subst hk
              rw [hd] at hdate
              injection hdate with hdate
              subst hdate
              exact le_refl _
            | succ k =>
              rw [List.getElem?_cons_succ] at hk
              exact hall k ku u hk hdate
          · intro k ku u hki _ _
            exact absurd hki (Nat.not_lt_zero k)
        · right
          refine ⟨i + 1, it, t, ?_, hit, hstep.trans heq, lt_trans hlt hcmp, ?_, ?_⟩
          · rw [List.getElem?_cons_succ]
            exact hi
          · intro k ku u hk hdate
            cases k with
            | zero =>
              rw [List.getElem?_cons_zero] at hk
              injection hk with hk
              subst hk
              rw [hd] at hdate
              injection hdate with hdate
              subst hdate
              exact le_of_lt hlt
            | succ k =>
              rw [List.getElem?_cons_succ] at hk
              exact hmin k ku u hk hdate
          · intro k ku u hki hk hdate
            cases k with
            | zero =>
              rw [List.getElem?_cons_zero] at hk
              injection hk with hk
              subst hk
              rw [hd] at hdate
              injection hdate with hdate
              subst hdate
              exact hlt
            | succ k =>
              rw [List.getElem?_cons_succ] at hk
              exact hstrict k ku u (by omega) hk hdate
      · have hstep : scanClosest now (item :: rest) md best = scanClosest now rest md best :=
          (scanClosest_cons_some now t0 item rest md best hd).trans (if_neg hcmp)
        have hge : md ≤ |now - t0| := Int.not_lt.mp hcmp
        rcases ih md best with ⟨heq, hall⟩ | ⟨i, it, t, hi, hit, heq, hlt, hmin, hstrict⟩
        · left
          refine ⟨hstep.trans heq, ?_⟩
          intro k ku u hk hdate
          cases k with
          | zero =>
            rw [List.getElem?_cons_zero] at hk
            injection hk with hk
            subst hk
            rw [hd] at hdate
            injection hdate with hdate
            subst hdate
            exact hge
          | succ k =>
            rw [List.getElem?_cons_succ] at hk
            exact hall k ku u hk hdate
        · right
          refine ⟨i + 1, it, t, ?_, hit, hstep.trans heq, hlt, ?_, ?_⟩
          · rw [List.getElem?_cons_succ]
            exact hi
          · intro k ku u hk hdate
            cases k with
            | zero =>
              rw [List.getElem?_cons_zero] at hk
              injection hk with hk
              subst hk
              rw [hd] at hdate
              injection hdate with hdate
              subst hdate
              exact le_of_lt (lt_of_lt_of_le hlt hge)
            | succ k =>
              rw [List.getElem?_cons_succ] at hk
              exact hmin k ku u hk hdate
          · intro k ku u hki hk hdate
            cases k with
            | zero =>
              rw [List.getElem?_cons_zero] at hk
              injection hk with hk
              subst hk
              rw [hd] at hdate
              injection hdate with hdate
              subst hdate
              exact lt_of_lt_of_le hlt hge
            | succ k =>
              rw [List.getElem?_cons_succ] at hk
              exact hstrict k ku u (by omega) hk hdate

/-- Claim C4 (corrected): provided some parseable sample lies strictly within
one day of `now`, `_get_current_status` selects a parseable sample of minimum
absolute distance to `now`, and every strictly earlier parseable sample is
strictly farther (so value ties keep the first-seen sample); unparseable
samples are never selected. -/
theorem current_status_selects_nearest (now : Int) (l : List RawItem)
    (hin : ∃ (j : Nat) (jt : RawItem) (t : Int),
      l[j]? = some jt ∧ jt.date = some t ∧ |now - t| < 86400) :
    ∃ (i : Nat) (it : RawItem) (t : Int), l[i]? = some it ∧ it.date = some t ∧
      get_current_status now (some l) = statusOf it ∧
      (∀ (k : Nat) (ku : RawItem) (u : Int),
        l[k]? = some ku → ku.date = some u → |now - t| ≤ |now - u|) ∧
      (∀ (k : Nat) (ku : RawItem) (u : Int),
        k < i → l[k]? = some ku → ku.date = some u → |now - t| < |now - u|) := by
  obtain ⟨j, jt, t, hj, hjd, hjlt⟩ := hin
  have hne : l.isEmpty = false := by
    cases l with
    | nil => simp at hj
    | cons a as => rfl
  rcases scanClosest_spec now l 86400 none with ⟨_, hall⟩ |
    ⟨i, it, t0, hi, hid, heq, _, hmin, hstrict⟩
  · exact absurd (hall j jt t hj hjd) (not_le.mpr hjlt)
  · refine ⟨i, it, t0, hi, hid, ?_, hmin, hstrict⟩
    simp only [get_current_status, hne, Bool.false_eq_true, if_false, heq]

/-- Claim C10: the scan never selects a sample a full day or more away from
`now`; in particular, when every parseable sample of a non-empty input is at
least one day away, the sentinel unknown status (pressure 100, no timestamp)
is returned even though parseable samples exist. -/
theorem current_status_one_day_cap (now : Int) (l : List RawItem) :
    (∀ t, (get_current_status now (some l)).time = some t → |now - t| < 86400) ∧
    (l ≠ [] →
      (∀ (k : Nat) (it : RawItem) (t : Int),
        l[k]? = some it → it.date = some t → 86400 ≤ |now - t|) →
      get_current_status now (some l) = unknownStatus) := by
  by_cases hnil : l = []
  · subst hnil
    constructor
    · intro t ht
      exact Option.noConfusion ht
    · intro h _
      exact absurd rfl h
  · have hne : l.isEmpty = false := List.isEmpty_eq_false.mpr hnil
    rcases scanClosest_spec now l 86400 none with ⟨heq, _⟩ |
      ⟨i, it, t0, hi, hid, heq, hlt, _, _⟩
    · have hres : get_current_status now (some l) = unknownStatus := by
        simp only [get_current_status, hne, Bool.false_eq_true, if_false, heq]
      constructor
      · intro t ht
        rw [hres] at ht
        exact Option.noConfusion ht
      · intro _ _
        exact hres
    · have hres : get_current_status now (some l) = statusOf it := by
        simp only [get_current_status, hne, Bool.false_eq_true, if_false, heq]
      constructor
      · intro t ht
        rw [hres] at ht
        have hd2 : it.date = some t := ht
        rw [hid] at hd2
        injection hd2 with hd2
        subst hd2
        exact hlt
      · intro _ hall2
        exact absurd (hall2 i it t0 hi hid) (not_le.mpr hlt)

/-- Two samples equidistant (100 s) from instant 0; the first is favorable. -/
def tieItemA : RawItem := ⟨some 100, some (Q.ofInt (-40)), none⟩

/-- See `tieItemA`. -/
def tieItemB : RawItem := ⟨some (-100), some (Q.ofInt 50), none⟩

/-- Witness for `current_status_selects_nearest` on a two-way tie at 100 s. -/
theorem current_status_selects_nearest_witness :
    (∃ (j : Nat) (jt : RawItem) (t : Int),
      [tieItemA, tieItemB][j]? = some jt ∧ jt.date = some t ∧ |(0:Int) - t| < 86400) ∧
    (∃ (i : Nat) (it : RawItem) (t : Int), [tieItemA, tieItemB][i]? = some it ∧
      it.date = some t ∧
      get_current_status 0 (some [tieItemA, tieItemB]) = statusOf it ∧
      (∀ (k : Nat) (ku : RawItem) (u : Int),
        [tieItemA, tieItemB][k]? = some ku → ku.date = some u → |(0:Int) - t| ≤ |(0:Int) - u|) ∧
      (∀ (k : Nat) (ku : RawItem) (u : Int),
        k < i → [tieItemA, tieItemB][k]? = some ku → ku.date = some u →
          |(0:Int) - t| < |(0:Int) - u|)) :=
  ⟨⟨0, tieItemA, 100, rfl, rfl, by decide⟩,
    current_status_selects_nearest 0 [tieItemA, tieItemB] ⟨0, tieItemA, 100, rfl, rfl, by decide⟩⟩

/-- A parseable sample exactly one day away from instant 0. -/
def farItem : RawItem := ⟨some 86400, some (Q.ofInt (-40)), none⟩

/-- Counterexample to claim C4 as stated: the input is non-empty and contains a
parseable sample (at distance exactly one day), yet no sample is selected —
the sentinel status with no timestamp is returned instead of the closest
sample. -/
theorem current_status_selects_nearest_cex :
    farItem.date = some 86400 ∧
    get_current_status 0 (some [farItem]) = unknownStatus ∧
    (get_current_status 0 (some [farItem])).time ≠ some 86400 := by decide

/-- Witness for `current_status_one_day_cap`: a single parseable sample one
day away yields the sentinel. -/
theorem current_status_one_day_cap_witness :
    ([farItem] ≠ [] ∧
      (∀ (k : Nat) (it : RawItem) (t : Int),
        [farItem][k]? = some it → it.date = some t → (86400:Int) ≤ |0 - t|)) ∧
    get_current_status 0 (some [farItem]) = unknownStatus := by
  have hall : ∀ (k : Nat) (it : RawItem) (t : Int),
      [farItem][k]? = some it → it.date = some t → (86400:Int) ≤ |0 - t| := by
    intro k it t hk hd
    cases k with
    | zero =>
      rw [List.getElem?_cons_zero] at hk
      injection hk with hk
      subst hk
      have hd2 : some (86400 : Int) = some t := hd
      injection hd2 with hd2
      subst hd2
      decide
    | succ k =>
      rw [List.getElem?_cons_succ] at hk
      exact Option.noConfusion (List.getElem?_nil ▸ hk)
  exact ⟨⟨by decide, hall⟩, (current_status_one_day_cap 0 [farItem]).2 (by decide) hall⟩

/-! ## Stability of the best-moments sort -/

theorem Q.not_lt_iff {a b : Q} : ¬ Q.lt a b ↔ Q.le b a := Int.not_lt

/-- The spec's tie-break order for `bestMoments`: strictly smaller pressure
value first, and on pressure value ties the smaller original input position
first.  (Pairs carry the moment's original position in the input.) -/
def momentIdxLe (a b : Nat × Moment) : Prop :=
  Q.lt a.2.range b.2.range ∨
    (Q.le a.2.range b.2.range ∧ Q.le b.2.range a.2.range ∧ a.1 ≤ b.1)

instance : DecidableRel momentIdxLe := fun a b => by
  unfold momentIdxLe
  infer_instance

/-- The spec's description of the sorted moment list: tag each projected
moment with its original position, sort by (pressure, position), drop the
tags.  Equal to the code's stable sort (`specSortedMoments_eq`). -/
def specSortedMoments (ms : List Moment) : List Moment :=
  ((ms.enum).insertionSort momentIdxLe).map Prod.snd

theorem momentIdxLe_iff_of_lt {i j : Nat} (a b : Moment) (hij : i < j) :
    momentIdxLe (i, a) (j, b) ↔ momentLe a b := by
  unfold momentIdxLe momentLe
  constructor
  · rintro (h | ⟨h, _, _⟩)
    · exact le_of_lt h
    · exact h
  · intro h
    by_cases hlt : Q.lt a.range b.range
    · exact Or.inl hlt
    · exact Or.inr ⟨h, Q.not_lt_iff.mp hlt, Nat.le_of_lt hij⟩

theorem map_snd_orderedInsert (i : Nat) (m : Moment) :
    ∀ ts : List (Nat × Moment), (∀ p ∈ ts, i < p.1) →
      (List.orderedInsert momentIdxLe (i, m) ts).map Prod.snd =
        List.orderedInsert momentLe m (ts.map Prod.snd)
  | [], _ => rfl
  | ⟨j, b⟩ :: ps, hlt => by
    have hij : i < j := hlt ⟨j, b⟩ (List.mem_cons_self _ _)
    by_cases hle : momentLe m b
    · rw [List.orderedInsert, if_pos ((momentIdxLe_iff_of_lt m b hij).mpr hle)]
      dsimp only [List.map_cons]
      rw [List.orderedInsert, if_pos hle]
    · rw [List.orderedInsert, if_neg (fun hcon => hle ((momentIdxLe_iff_of_lt m b hij).mp hcon))]
      dsimp only [List.map_cons]
      rw [List.orderedInsert, if_neg hle]
      rw [map_snd_orderedInsert i m ps (fun q hq => hlt q (List.mem_cons_of_mem _ hq))]

theorem specSorted_aux :
    ∀ (ms : List Moment) (n : Nat),
      ((ms.enumFrom n).insertionSort momentIdxLe).map Prod.snd =
        ms.insertionSort momentLe
  | [], _ => rfl
  | m :: ms, n => by
    have hmem : ∀ p ∈ (ms.enumFrom (n + 1)).insertionSort momentIdxLe, n < p.1 := by
      intro p hp
      rw [List.mem_insertionSort] at hp
      obtain ⟨a, b⟩ := p
      rw [List.mk_mem_enumFrom_iff_le_and_getElem?_sub] at hp
      omega
    show (List.orderedInsert momentIdxLe (n, m)
        ((ms.enumFrom (n + 1)).insertionSort momentIdxLe)).map Prod.snd =
      List.orderedInsert momentLe m (ms.insertionSort momentLe)
    rw [map_snd_orderedInsert n m _ hmem, specSorted_aux ms (n + 1)]

theorem specSortedMoments_eq (ms : List Moment) :
    specSortedMoments ms = ms.insertionSort momentLe := specSorted_aux ms 0

theorem except_bind_ok {ε α β : Type} {x : Except ε α} {f : α → Except ε β} {b : β}
    (h : x >>= f = .ok b) : ∃ v, x = .ok v ∧ f v = .ok b := by
  cases x with
  | error e => exact Except.noConfusion h
  | ok v => exact ⟨v, rfl, h⟩

theorem analyze_day_ok_best_moments (data : List RawItem) (a : DayAnalysis)
    (hok : analyze_day data = .ok (some a)) :
    a.best_moments = (List.insertionSort momentLe (data.map projMoment)).take 5 := by
  unfold analyze_day at hok
  by_cases hemp : data.isEmpty
  · rw [if_pos hemp] at hok
    exact Option.noConfusion (Except.ok.inj hok)
  · rw [if_neg hemp] at hok
    obtain ⟨g, hg, hok⟩ := except_bind_ok hok
    obtain ⟨o, ho, hok⟩ := except_bind_ok hok
    obtain ⟨r, hr, hok⟩ := except_bind_ok hok
    have h2 : some
        { average_range := pyRound1 (listAvg (data.map fun item => item.range.getD (Q.ofInt 100)))
          min_range := listMin (data.map fun item => item.range.getD (Q.ofInt 100))
          max_range := listMax (data.map fun item => item.range.getD (Q.ofInt 100))
          green_count := g
          orange_count := o
          red_count := r
          best_moments := (List.insertionSort momentLe (data.map projMoment)).take 5
          green_moments := (data.filterMap fun item =>
            if Q.le (item.range.getD (Q.ofInt 100)) (Q.ofInt (-30)) then some (mkMomentInfo item)
            else none).take 10
          hourly_data := aggregate_hourly data
          raw_data_count := data.length } = some a := Except.ok.inj hok
    have h3 := Option.some.inj h2
    rw [← h3]

/-- Claim C8: whenever `_analyze_day` produces an analysis, its `best_moments`
has length at most 5, consists of `{date, range}` projections of input samples,
is sorted ascending by pressure with value ties kept in original input order
(it equals the take-5 of the position-tagged lexicographic sort), and is a
smallest-pressure selection: the remaining projections are all at least as
large. -/
theorem best_moments_spec (data : List RawItem) (a : DayAnalysis)
    (hok : analyze_day data = .ok (some a)) :
    a.best_moments.length ≤ 5 ∧
    (∀ m ∈ a.best_moments, m ∈ data.map projMoment) ∧
    a.best_moments.Pairwise momentLe ∧
    a.best_moments = (specSortedMoments (data.map projMoment)).take 5 ∧
    (∃ rest : List Moment, (data.map projMoment).Perm (a.best_moments ++ rest) ∧
      ∀ m ∈ a.best_moments, ∀ m2 ∈ rest, momentLe m m2) := by
  have hbm := analyze_day_ok_best_moments data a hok
  have hsorted : (List.insertionSort momentLe (data.map projMoment)).Pairwise momentLe :=
    List.sorted_insertionSort momentLe (data.map projMoment)
  have hperm := List.perm_insertionSort momentLe (data.map projMoment)
  refine ⟨?_, ?_, ?_, ?_, ?_⟩
  · rw [hbm, List.length_take]
    exact min_le_left _ _
  · intro m hm
    rw [hbm] at hm
    exact hperm.subset (List.mem_of_mem_take hm)
  · rw [hbm]
    exact List.Pairwise.sublist (List.take_sublist 5 _) hsorted
  · rw [hbm, specSortedMoments_eq]
  · refine ⟨(List.insertionSort momentLe (data.map projMoment)).drop 5, ?_, ?_⟩
    · rw [hbm, List.take_append_drop]
      exact hperm.symm
    · have hp : ((List.insertionSort momentLe (data.map projMoment)).take 5 ++
          (List.insertionSort momentLe (data.map projMoment)).drop 5).Pairwise momentLe := by
        rw [List.take_append_drop]
        exact hsorted
      intro m hm m2 hm2
      rw [hbm] at hm
      exact (List.pairwise_append.mp hp).2.2 m hm m2 hm2

/-- A full-coverage day: one sample per hour, all with pressure -40. -/
def fullDayData : List RawItem :=
  (List.range 24).map fun h => ⟨some (3600 * h), some (Q.ofInt (-40)), none⟩

/-- The analysis `_analyze_day` produces on `fullDayData`. -/
def fullDayAnalysis : DayAnalysis :=
  { average_range := ⟨-400, 10⟩, min_range := Q.ofInt (-40), max_range := Q.ofInt (-40)
    green_count := 24, orange_count := 0, red_count := 0
    best_moments := (List.range 5).map fun h => ⟨some (3600 * h), Q.ofInt (-40)⟩
    green_moments := (List.range 10).map fun h => ⟨some (3600 * h), Q.ofInt (-40), "green"⟩
    hourly_data := (List.range 24).map fun h => ⟨h, some ⟨-400, 10⟩, "green"⟩
    raw_data_count := 24 }

set_option maxRecDepth 10000 in
/-- Witness for `best_moments_spec` at the full-coverage day. -/
theorem best_moments_spec_witness :
    analyze_day fullDayData = .ok (some fullDayAnalysis) ∧
    (fullDayAnalysis.best_moments.length ≤ 5 ∧
      (∀ m ∈ fullDayAnalysis.best_moments, m ∈ fullDayData.map projMoment) ∧
      fullDayAnalysis.best_moments.Pairwise momentLe ∧
      fullDayAnalysis.best_moments = (specSortedMoments (fullDayData.map projMoment)).take 5 ∧
      (∃ rest : List Moment, (fullDayData.map projMoment).Perm
          (fullDayAnalysis.best_moments ++ rest) ∧
        ∀ m ∈ fullDayAnalysis.best_moments, ∀ m2 ∈ rest, momentLe m m2)) :=
  ⟨by decide, best_moments_spec fullDayData fullDayAnalysis (by decide)⟩
